import Mathlib

/-!
Shallow embedding of the chat session controller of `aarushsaboo/testing_expo`
(the `HomeScreen` component) and of the credential wiring in `app.config.js`.

The embedding follows the source:
* `ChatMessage` mirrors the `ChatMessage` interface (`id`, `text`, `isBot`).
* `SessionState` mirrors the React state of `HomeScreen`: `chatHistory`,
  `message` (the draft), `isLoading`, plus an explicit list `pending` of
  in-flight resolver calls; each pending call records the history length
  captured by the `sendMessage` closure and the text passed to the resolver.
* `callGeminiApi` mirrors the async function of the same name; the outcome of
  the `fetch` is an explicit parameter (`FetchOutcome`), and the function also
  returns the network request it issued, if any, so that "no network call" is
  expressible.
* `sendMessageStart` is the synchronous prefix of `sendMessage` up to the
  `await` of `callGeminiApi`; `resolveReply` is its continuation (the
  assistant append in the `try` block together with the `finally` clause).
-/

namespace TestingExpo

/-- Mirrors the `ChatMessage` interface of the source. -/
structure ChatMessage where
  id : Nat
  text : String
  isBot : Bool
deriving Repr, DecidableEq

/-- The seeded history: `[{ id: 1, text: "Hello! How can I help you today?", isBot: true }]`. -/
def seedHistory : List ChatMessage :=
  [⟨1, "Hello! How can I help you today?", true⟩]

/-- Model of JavaScript `String.prototype.trim`: drop whitespace from both
ends of the string. -/
def jsTrim (s : String) : String :=
  ⟨((s.data.dropWhile Char.isWhitespace).reverse.dropWhile Char.isWhitespace).reverse⟩

/-- The fallback returned by `callGeminiApi` when `!GEMINI_API_KEY`. -/
def missingKeyFallback : String :=
  "API key not configured. Please add your Gemini API key to the app configuration."

/-- The fallback used when the success payload carries no (or an empty) text. -/
def emptyResponseFallback : String :=
  "Sorry, I couldn't generate a response."

/-- The string returned by the `catch` block of `callGeminiApi`. -/
def genericErrorFallback : String :=
  "Sorry, there was an error processing your request. Please try again later."

/-- The body assembled by `response.json()` as far as `callGeminiApi` reads it:
either `response.json()` itself throws (`malformed`), or it yields a payload
whose value at `candidates[0].content.parts[0].text` is the given
`Option String` (`none` when the optional-chaining path is absent). -/
inductive ResponseBody where
  | malformed
  | json (extractedText : Option String)
deriving Repr, DecidableEq

/-- Outcome of the `fetch` call: the promise rejects (`networkError`) or a
response with the given HTTP status and body arrives. -/
inductive FetchOutcome where
  | networkError
  | response (status : Nat) (body : ResponseBody)
deriving Repr, DecidableEq

/-- `response.ok` of the Fetch API: status in the range 200–299. -/
def responseOk (status : Nat) : Bool :=
  decide (200 ≤ status) && decide (status < 300)

/-- JavaScript truthiness test `!GEMINI_API_KEY` for the key value, which is
either `undefined` (`none`, when `Constants.expoConfig?.extra?.geminiApiKey`
is absent) or a string: falsy iff absent or the empty string. -/
def keyFalsy : Option String → Bool
  | none => true
  | some s => s == ""

/-- The request `callGeminiApi` issues: credential as the `key` query
parameter, and the raw user text placed verbatim at
`contents[0].parts[0].text` of the JSON body. -/
structure GeminiRequest where
  keyParam : String
  bodyText : String
deriving Repr, DecidableEq

/-- Mirrors `callGeminiApi`. Returns the string the function resolves with,
paired with the network request it issued (`none` when no `fetch` happened).

Source logic: if `!GEMINI_API_KEY` return the missing-key message; otherwise
`fetch`; a rejected `fetch` (or a throwing `response.json()`) lands in the
`catch`, which returns the generic error message; `!response.ok` throws into
the same `catch`; on a 2xx response the text at
`candidates[0].content.parts[0].text` is returned unless it is absent or
`""` (falsy), in which case the empty-response fallback is returned. -/
def callGeminiApi (apiKey : Option String) (outcome : FetchOutcome)
    (userMessage : String) : String × Option GeminiRequest :=
  if keyFalsy apiKey then
    (missingKeyFallback, none)
  else
    let req : GeminiRequest := ⟨apiKey.getD "", userMessage⟩
    match outcome with
    | .networkError => (genericErrorFallback, some req)
    | .response status body =>
      if !responseOk status then
        (genericErrorFallback, some req)
      else
        match body with
        | .malformed => (genericErrorFallback, some req)
        | .json extractedText =>
          match extractedText with
          | none => (emptyResponseFallback, some req)
          | some t => (if t == "" then emptyResponseFallback else t, some req)

/-- One in-flight resolver call: the history length the `sendMessage` closure
captured when it was invoked, and the `userMessageText` it passed on. -/
structure PendingCall where
  capturedLen : Nat
  userText : String
deriving Repr, DecidableEq

/-- Mirrors the React state of `HomeScreen`, with the outstanding resolver
calls made explicit. -/
structure SessionState where
  chatHistory : List ChatMessage
  message : String
  isLoading : Bool
  pending : List PendingCall
deriving Repr, DecidableEq

/-- The state at screen mount. -/
def initialState : SessionState :=
  ⟨seedHistory, "", false, []⟩

/-- Mirrors `setMessage` via `onChangeText`: replaces the draft, no checks. -/
def updateDraft (s : SessionState) (t : String) : SessionState :=
  { s with message := t }

/-- The synchronous prefix of `sendMessage`, up to the `await`:
guard `message.trim() === ""`, set `isLoading`, append the user message with
id `chatHistory.length + 1`, clear the draft, and start the resolver call
with the saved `userMessageText`. Note the only guard is the trim check;
`isLoading` is not consulted. -/
def sendMessageStart (s : SessionState) : SessionState :=
  if jsTrim s.message == "" then s
  else
    { chatHistory := s.chatHistory ++ [⟨s.chatHistory.length + 1, s.message, false⟩]
      message := ""
      isLoading := true
      pending := s.pending ++ [⟨s.chatHistory.length, s.message⟩] }

/-- The continuation of `sendMessage` after `callGeminiApi` resolves with
`botResponseText`: append the assistant message with id
`chatHistory.length + 2` computed from the closure-captured length, and run
the `finally` clause (`setIsLoading(false)`). The completed call leaves the
pending list. -/
def resolveReply (s : SessionState) (p : PendingCall) (botResponseText : String) :
    SessionState :=
  { chatHistory := s.chatHistory ++ [⟨p.capturedLen + 2, botResponseText, true⟩]
    message := s.message
    isLoading := false
    pending := s.pending.erase p }

/-- A whole `sendMessage` turn run without interleaving: the synchronous
prefix, then the resolver outcome, then the continuation. -/
def sendMessageFull (s : SessionState) (apiKey : Option String)
    (outcome : FetchOutcome) : SessionState :=
  if jsTrim s.message == "" then s
  else
    resolveReply (sendMessageStart s) ⟨s.chatHistory.length, s.message⟩
      (callGeminiApi apiKey outcome s.message).1

/-- The operations of the session as the spec's gate intends them to be used:
drafts may change at any time; `sendMessage` is only invoked on a non-empty
trimmed draft while no call is outstanding (the send button is disabled
otherwise); a resolution is the completion of the unique outstanding call. -/
inductive GatedStep : SessionState → SessionState → Prop where
  | draft (s : SessionState) (t : String) : GatedStep s (updateDraft s t)
  | submit (s : SessionState) (hmsg : jsTrim s.message ≠ "")
      (hidle : s.isLoading = false) : GatedStep s (sendMessageStart s)
  | resolve (s : SessionState) (p : PendingCall) (reply : String)
      (hp : s.pending = [p]) : GatedStep s (resolveReply s p reply)

/-- States reachable from the seeded session by correctly gated operations. -/
def Reachable (s : SessionState) : Prop :=
  Relation.ReflTransGen GatedStep initialState s

/-- Every message's id is its 1-based position in the history. -/
def wellIndexed (h : List ChatMessage) : Prop :=
  ∀ i : Fin h.length, (h.get i).id = (i : Nat) + 1

/-- The invariant maintained by gated execution: ids are positional,
`isLoading` tracks whether a call is outstanding, at most one call is
outstanding, and an outstanding call saw exactly one message fewer than the
current history. -/
def SessionInv (s : SessionState) : Prop :=
  wellIndexed s.chatHistory ∧
  (s.isLoading = false ↔ s.pending = []) ∧
  ∀ p ∈ s.pending, s.chatHistory.length = p.capturedLen + 1

/-- A fetch outcome in which the call did not succeed: the promise rejected
or the response status was not 2xx. -/
def fetchFailed : FetchOutcome → Bool
  | .networkError => true
  | .response status _ => !responseOk status

/-- Mirrors `extra.geminiApiKey` of `app.config.js`:
`envVars.GEMINI_API_KEY || "FALLBACK_API_KEY"`. The environment value is
`none` when `.env.js` leaves `GEMINI_API_KEY` undefined; `||` substitutes the
placeholder for any falsy value (undefined or the empty string). -/
def appConfigGeminiApiKey (env : Option String) : String :=
  match env with
  | none => "FALLBACK_API_KEY"
  | some s => if s == "" then "FALLBACK_API_KEY" else s

/-- One attempted turn at the UI: the draft typed before pressing send, and
the environment (key, fetch outcome) the resolver call would see. -/
structure TurnInput where
  draft : String
  apiKey : Option String
  outcome : FetchOutcome

/-- Run a sequence of send attempts in the gated discipline: each turn types
a draft and invokes `sendMessage`, and the resolver call (if any) completes
before the next turn starts. -/
def runTurns (s : SessionState) : List TurnInput → SessionState
  | [] => s
  | t :: ts => runTurns (sendMessageFull (updateDraft s t.draft) t.apiKey t.outcome) ts

/-- The number of turns whose draft passes the `message.trim() === ""` guard. -/
def acceptedCount (ts : List TurnInput) : Nat :=
  ts.countP (fun t => !(jsTrim t.draft == ""))

end TestingExpo

namespace TestingExpo

/-! ### Helper lemmas -/

theorem wellIndexed_append {h : List ChatMessage} {m : ChatMessage}
    (hw : wellIndexed h) (hm : m.id = h.length + 1) : wellIndexed (h ++ [m]) := by
  intro i
  rcases Nat.lt_or_ge (i : Nat) h.length with hlt | hge
  · have hget : (h ++ [m]).get i = h.get ⟨i, hlt⟩ := by
      simp [List.get_eq_getElem]
      rw [List.getElem_append_left hlt]
    rw [hget]
    exact hw ⟨i, hlt⟩
  · have hi := i.isLt
    simp only [List.length_append, List.length_singleton] at hi
    have hieq : (i : Nat) = h.length := by omega
    have hget : (h ++ [m]).get i = m := by
      simp [List.get_eq_getElem]
      rw [List.getElem_append_right hge]
      simp [hieq]
    rw [hget, hm, hieq]

theorem sessionInv_initial : SessionInv initialState :=
  ⟨fun i => by fin_cases i; rfl, by simp [initialState], by simp [initialState]⟩

theorem sessionInv_step {s s' : SessionState} (h : GatedStep s s')
    (hs : SessionInv s) : SessionInv s' := by
  obtain ⟨hw, hload, hpend⟩ := hs
  cases h with
  | draft t =>
      exact ⟨hw, hload, hpend⟩
  | submit hmsg hidle =>
      have hpe : s.pending = [] := hload.mp hidle
      have hcond : (jsTrim s.message == "") = false := by
        simpa using hmsg
      unfold sendMessageStart
      rw [hcond]
      simp only [Bool.false_eq_true, if_false]
      refine ⟨wellIndexed_append hw rfl, ?_, ?_⟩
      · simp [hpe]
      · intro p hp
        simp [hpe] at hp
        simp [hp]
  | resolve p reply hp =>
      have hlen : s.chatHistory.length = p.capturedLen + 1 :=
        hpend p (by simp [hp])
      refine ⟨?_, ?_, ?_⟩
      · exact wellIndexed_append hw (by simp [hlen])
      · simp [resolveReply, hp]
      · intro q hq
        simp [resolveReply, hp] at hq

theorem sessionInv_reachable {s : SessionState} (h : Reachable s) : SessionInv s := by
  induction h with
  | refl => exact sessionInv_initial
  | tail _ hstep ih => exact sessionInv_step hstep ih

theorem reachable_two_step :
    Reachable (sendMessageStart (updateDraft initialState "hi")) := by
  have h1 : GatedStep initialState (updateDraft initialState "hi") :=
    GatedStep.draft _ _
  have h2 : GatedStep (updateDraft initialState "hi")
      (sendMessageStart (updateDraft initialState "hi")) :=
    GatedStep.submit _ (by decide) (by decide)
  exact Relation.ReflTransGen.tail (Relation.ReflTransGen.single h1) h2

end TestingExpo

namespace TestingExpo

/-! ### Claim C1 -/

/-- C1 is false on the code: `sendMessage` checks only
`message.trim() === ""`, never `isLoading`, so invoking it with a non-empty
draft while a reply is awaited (`isLoading = true`) appends a user message
and starts another resolver call instead of being a no-op. Concretely, from
the seeded history with draft `"hi"`, `isLoading = true` and one call
outstanding, `sendMessage` changes the history and the outstanding calls. -/
theorem C1_counterexample :
    (⟨seedHistory, "hi", true, [⟨1, "prev"⟩]⟩ : SessionState).isLoading = true ∧
    (sendMessageStart ⟨seedHistory, "hi", true, [⟨1, "prev"⟩]⟩).chatHistory ≠ seedHistory ∧
    (sendMessageStart ⟨seedHistory, "hi", true, [⟨1, "prev"⟩]⟩).pending ≠ [⟨1, "prev"⟩] := by
  decide

/-- C1 amended: the only precondition `sendMessage` enforces internally is
that the draft trims to non-empty — an empty-trim invocation is a no-op for
the whole state; the `isAwaitingReply` precondition is enforced only by the
caller (the disabled send button), and an ungated invocation with a
non-empty draft proceeds: it appends the user message and starts a resolver
call regardless of `isLoading`. -/
theorem C1_amended (s : SessionState) :
    (jsTrim s.message = "" → sendMessageStart s = s) ∧
    (jsTrim s.message ≠ "" →
      (sendMessageStart s).chatHistory =
        s.chatHistory ++ [⟨s.chatHistory.length + 1, s.message, false⟩] ∧
      (sendMessageStart s).pending =
        s.pending ++ [⟨s.chatHistory.length, s.message⟩]) := by
  constructor
  · intro h
    simp [sendMessageStart, h]
  · intro h
    have hcond : (jsTrim s.message == "") = false := by simpa using h
    simp [sendMessageStart, hcond]

/-- Witness for `C1_amended`: an all-whitespace draft is a no-op even while
loading, and a non-empty draft appends even while loading. -/
theorem C1_amended_witness :
    sendMessageStart ⟨seedHistory, "   ", true, []⟩ = ⟨seedHistory, "   ", true, []⟩ ∧
    (sendMessageStart ⟨seedHistory, "ok", true, []⟩).chatHistory =
      seedHistory ++ [⟨2, "ok", false⟩] := by
  refine ⟨(C1_amended ⟨seedHistory, "   ", true, []⟩).1 (by decide), ?_⟩
  have h := (C1_amended ⟨seedHistory, "ok", true, []⟩).2 (by decide)
  simpa using h.1

/-! ### Claim C2 -/

/-- C2 is false on the code: the assistant id is `chatHistory.length + 2`
with `chatHistory` captured by the `sendMessage` closure at submit time, not
read at append time. In the ungated run submit `"a"`, submit `"b"`, then
resolve the first call, the assistant message is appended to a history of
length 3 with id 3, not (append-time length) + 1 = 4. -/
theorem C2_counterexample :
    ((resolveReply
          (sendMessageStart (updateDraft (sendMessageStart (updateDraft initialState "a")) "b"))
          ⟨1, "a"⟩ "reply").chatHistory.getLast?.map ChatMessage.id) ≠
      some ((sendMessageStart
          (updateDraft (sendMessageStart (updateDraft initialState "a")) "b")).chatHistory.length + 1) := by
  decide

/-- C2 amended: the assistant id is `capturedLen + 2` from the submit-time
closure; in every correctly gated state (reachable, with the resolved call
the unique outstanding one) the history has grown by exactly the one user
message since capture, so the id still equals (append-time length) + 1. -/
theorem C2_amended (s : SessionState) (p : PendingCall) (reply : String)
    (hr : Reachable s) (hp : s.pending = [p]) :
    (resolveReply s p reply).chatHistory.getLast? =
      some ⟨s.chatHistory.length + 1, reply, true⟩ := by
  obtain ⟨-, -, hpend⟩ := sessionInv_reachable hr
  have hlen : s.chatHistory.length = p.capturedLen + 1 := hpend p (by simp [hp])
  simp [resolveReply, hlen]

/-- Witness for `C2_amended`: after the gated turn draft `"hi"`, submit, the
resolution appends the assistant message with id 3 = (length 2) + 1. -/
theorem C2_amended_witness :
    (resolveReply (sendMessageStart (updateDraft initialState "hi"))
        ⟨1, "hi"⟩ "ok").chatHistory.getLast? = some ⟨3, "ok", true⟩ := by
  have h := C2_amended (sendMessageStart (updateDraft initialState "hi"))
    ⟨1, "hi"⟩ "ok" reachable_two_step (by decide)
  simpa using h

/-! ### Claim C3 -/

/-- C3 is false on the code: a completed non-2xx response throws into the
same `catch` that handles transport failures, so the "service-error"
result and the "transport-error" result are the same string, not two
pairwise-distinct fallbacks. -/
theorem C3_counterexample :
    (callGeminiApi (some "k") (.response 500 (.json (some "body"))) "hi").1 =
      (callGeminiApi (some "k") .networkError "hi").1 ∧
    (callGeminiApi (some "k") (.response 500 (.json (some "body"))) "hi").1 =
      genericErrorFallback := by
  decide

/-- C3 amended: every failure class yields a fixed fallback string and no
exception escapes, but there are only two distinct failure fallbacks: the
missing-credential string, and one generic error string returned uniformly
for both non-2xx completions and transport failures. -/
theorem C3_amended :
    (∀ key outcome msg, keyFalsy key = true →
      (callGeminiApi key outcome msg).1 = missingKeyFallback) ∧
    (∀ key status body msg, keyFalsy key = false → responseOk status = false →
      (callGeminiApi key (.response status body) msg).1 = genericErrorFallback) ∧
    (∀ key msg, keyFalsy key = false →
      (callGeminiApi key .networkError msg).1 = genericErrorFallback) ∧
    missingKeyFallback ≠ genericErrorFallback := by
  refine ⟨?_, ?_, ?_, by decide⟩
  · intro key outcome msg h
    simp [callGeminiApi, h]
  · intro key status body msg hk hs
    simp [callGeminiApi, hk, hs]
  · intro key msg hk
    simp [callGeminiApi, hk]

/-- Witness for `C3_amended`: instantiated at a missing key, at an HTTP 500,
and at a rejected fetch. -/
theorem C3_amended_witness :
    (callGeminiApi none .networkError "q").1 = missingKeyFallback ∧
    (callGeminiApi (some "k") (.response 500 .malformed) "q").1 = genericErrorFallback ∧
    (callGeminiApi (some "k") .networkError "q").1 = genericErrorFallback :=
  ⟨C3_amended.1 none .networkError "q" (by decide),
   C3_amended.2.1 (some "k") 500 .malformed "q" (by decide) (by decide),
   C3_amended.2.2.1 (some "k") "q" (by decide)⟩

end TestingExpo

namespace TestingExpo

/-! ### Claim C4 -/

/-- C4: for every accepted submit (draft trims non-empty), whatever the key
and whatever the fetch outcome (success, non-2xx, malformed body, or
rejection), the turn ends with `isLoading = false` and the history extended
by exactly the one user message and exactly one assistant message. -/
theorem C4_confirmed (s : SessionState) (key : Option String)
    (outcome : FetchOutcome) (h : jsTrim s.message ≠ "") :
    (sendMessageFull s key outcome).isLoading = false ∧
    ∃ reply, (sendMessageFull s key outcome).chatHistory =
      s.chatHistory ++ [⟨s.chatHistory.length + 1, s.message, false⟩,
        ⟨s.chatHistory.length + 2, reply, true⟩] := by
  have hcond : (jsTrim s.message == "") = false := by simpa using h
  refine ⟨?_, (callGeminiApi key outcome s.message).1, ?_⟩
  · simp [sendMessageFull, hcond, resolveReply]
  · simp [sendMessageFull, hcond, sendMessageStart, resolveReply]

/-- Witness for `C4_confirmed`: one accepted submit of `"hello"` under a
rejected fetch with no key ends not loading, with exactly one user and one
assistant message appended. -/
theorem C4_confirmed_witness :
    (sendMessageFull ⟨seedHistory, "hello", false, []⟩ none .networkError).isLoading = false ∧
    ∃ reply, (sendMessageFull ⟨seedHistory, "hello", false, []⟩ none .networkError).chatHistory =
      seedHistory ++ [⟨2, "hello", false⟩, ⟨3, reply, true⟩] :=
  C4_confirmed ⟨seedHistory, "hello", false, []⟩ none .networkError (by decide)

/-! ### Claim C5 -/

/-- C5: in every state reachable from the seed by gated operations, each
message's id equals its 1-based position in the history, and ids strictly
increase with append order. -/
theorem C5_confirmed (s : SessionState) (hr : Reachable s) :
    (∀ i : Fin s.chatHistory.length, (s.chatHistory.get i).id = (i : Nat) + 1) ∧
    (∀ i j : Fin s.chatHistory.length, (i : Nat) < (j : Nat) →
      (s.chatHistory.get i).id < (s.chatHistory.get j).id) := by
  have hw := (sessionInv_reachable hr).1
  refine ⟨hw, ?_⟩
  intro i j hij
  rw [hw i, hw j]
  omega

/-- Witness for `C5_confirmed`: in the reachable state after drafting `"hi"`
and submitting, the second message has id 2 and ids increase. -/
theorem C5_confirmed_witness :
    ((sendMessageStart (updateDraft initialState "hi")).chatHistory.get ⟨1, by decide⟩).id = 2 ∧
    ((sendMessageStart (updateDraft initialState "hi")).chatHistory.get ⟨0, by decide⟩).id <
      ((sendMessageStart (updateDraft initialState "hi")).chatHistory.get ⟨1, by decide⟩).id := by
  have h := C5_confirmed (sendMessageStart (updateDraft initialState "hi")) reachable_two_step
  exact ⟨h.1 ⟨1, by decide⟩, h.2 ⟨0, by decide⟩ ⟨1, by decide⟩ (by decide)⟩

/-! ### Claim C6 -/

theorem sendMessageFull_length (s : SessionState) (key : Option String)
    (outcome : FetchOutcome) :
    (sendMessageFull s key outcome).chatHistory.length =
      s.chatHistory.length + (if jsTrim s.message == "" then 0 else 2) := by
  by_cases hc : (jsTrim s.message == "") = true
  · simp [sendMessageFull, hc]
  · have hc' : (jsTrim s.message == "") = false := by simpa using hc
    simp [sendMessageFull, hc', sendMessageStart, resolveReply]

theorem runTurns_length (ts : List TurnInput) :
    ∀ s : SessionState, (runTurns s ts).chatHistory.length =
      s.chatHistory.length + 2 * acceptedCount ts := by
  induction ts with
  | nil => intro s; simp [runTurns, acceptedCount]
  | cons t ts ih =>
      intro s
      rw [runTurns, ih, sendMessageFull_length]
      simp only [updateDraft]
      unfold acceptedCount
      rw [List.countP_cons]
      by_cases hc : (jsTrim t.draft == "") = true
      · simp [hc, acceptedCount]
      · have hc' : (jsTrim t.draft == "") = false := by simpa using hc
        simp [hc', acceptedCount]
        ring

/-- C6: after any gated sequence of send attempts, each run to completion
before the next, the history length is 1 (the seed) plus 2 for every
accepted submit (drafts trimming to empty are rejected and add nothing). -/
theorem C6_confirmed (ts : List TurnInput) :
    (runTurns initialState ts).chatHistory.length = 1 + 2 * acceptedCount ts := by
  rw [runTurns_length]
  rfl

end TestingExpo

namespace TestingExpo

/-! ### Claim C7 -/

/-- C7: whenever the key is absent or empty, `callGeminiApi` returns the
missing-credential fallback at once, for every input and every would-be
fetch outcome, and issues no network request. -/
theorem C7_confirmed (key : Option String) (outcome : FetchOutcome)
    (msg : String) (h : keyFalsy key = true) :
    callGeminiApi key outcome msg = (missingKeyFallback, none) := by
  simp [callGeminiApi, h]

/-- Witness for `C7_confirmed`: with the key set to the empty string,
`resolve("hi")` yields the missing-credential string and no request. -/
theorem C7_confirmed_witness :
    callGeminiApi (some "") .networkError "hi" = (missingKeyFallback, none) :=
  C7_confirmed (some "") .networkError "hi" (by decide)

/-! ### Claim C8 -/

/-- C8: on a 2xx response, the resolver returns the string found at
`candidates[0].content.parts[0].text`; when that path is absent or holds the
empty string, it returns the "couldn't generate a response" fallback. -/
theorem C8_confirmed (key : Option String) (status : Nat) (msg : String)
    (extracted : Option String) (hk : keyFalsy key = false)
    (hs : responseOk status = true) :
    (∀ t, extracted = some t → t ≠ "" →
      (callGeminiApi key (.response status (.json extracted)) msg).1 = t) ∧
    ((extracted = none ∨ extracted = some "") →
      (callGeminiApi key (.response status (.json extracted)) msg).1 =
        emptyResponseFallback) := by
  constructor
  · intro t ht htne
    have htc : (t == "") = false := by simpa using htne
    simp [callGeminiApi, hk, hs, ht, htc]
  · rintro (he | he) <;> simp [callGeminiApi, hk, hs, he]

/-- Witness for `C8_confirmed`: an HTTP 200 whose payload carries `"Hello back"`
resolves to it, and one whose path holds `""` resolves to the generic
empty-response fallback. -/
theorem C8_confirmed_witness :
    (callGeminiApi (some "k") (.response 200 (.json (some "Hello back"))) "hi").1 =
      "Hello back" ∧
    (callGeminiApi (some "k") (.response 200 (.json (some ""))) "hi").1 =
      emptyResponseFallback :=
  ⟨(C8_confirmed (some "k") 200 "hi" (some "Hello back") (by decide) (by decide)).1
      "Hello back" rfl (by decide),
   (C8_confirmed (some "k") 200 "hi" (some "") (by decide) (by decide)).2 (Or.inr rfl)⟩

/-! ### Claim C9 -/

/-- C9: the shipped configuration maps every environment value to a
non-empty key (absence and the empty string both fall back to the non-empty
placeholder `"FALLBACK_API_KEY"`), so the missing-credential branch of the
resolver is unreachable under it; with the environment variable unset, every
call attempts the network with the placeholder key, and every failed fetch
yields the generic error fallback, not the missing-credential one. -/
theorem C9_confirmed :
    (∀ env, keyFalsy (some (appConfigGeminiApiKey env)) = false) ∧
    appConfigGeminiApiKey none = "FALLBACK_API_KEY" ∧
    (∀ outcome msg,
      (callGeminiApi (some (appConfigGeminiApiKey none)) outcome msg).2 =
        some ⟨"FALLBACK_API_KEY", msg⟩) ∧
    (∀ outcome msg, fetchFailed outcome = true →
      (callGeminiApi (some (appConfigGeminiApiKey none)) outcome msg).1 =
        genericErrorFallback) ∧
    genericErrorFallback ≠ missingKeyFallback := by
  refine ⟨?_, rfl, ?_, ?_, by decide⟩
  · intro env
    match env with
    | none => rfl
    | some s =>
        by_cases hs : (s == "") = true
        · simp [appConfigGeminiApiKey, keyFalsy, hs]
        · have hs' : (s == "") = false := by simpa using hs
          simp [appConfigGeminiApiKey, keyFalsy, hs']
  · intro outcome msg
    match outcome with
    | .networkError => rfl
    | .response status body =>
        by_cases hok : responseOk status = true
        · match body with
          | .malformed => simp [callGeminiApi, appConfigGeminiApiKey, keyFalsy, hok]
          | .json none => simp [callGeminiApi, appConfigGeminiApiKey, keyFalsy, hok]
          | .json (some t) => simp [callGeminiApi, appConfigGeminiApiKey, keyFalsy, hok]
        · have hok' : responseOk status = false := by simpa using hok
          simp [callGeminiApi, appConfigGeminiApiKey, keyFalsy, hok']
  · intro outcome msg hf
    match outcome with
    | .networkError => rfl
    | .response status body =>
        have hok : responseOk status = false := by
          simpa [fetchFailed] using hf
        simp [callGeminiApi, appConfigGeminiApiKey, keyFalsy, hok]

/-- Witness for `C9_confirmed`: with the environment variable unset and the
fetch failing with HTTP 403 (an invalid placeholder key being rejected), the
request goes out with `"FALLBACK_API_KEY"` and the result is the generic
error fallback. -/
theorem C9_confirmed_witness :
    (callGeminiApi (some (appConfigGeminiApiKey none))
        (.response 403 .malformed) "hi").2 = some ⟨"FALLBACK_API_KEY", "hi"⟩ ∧
    (callGeminiApi (some (appConfigGeminiApiKey none))
        (.response 403 .malformed) "hi").1 = genericErrorFallback :=
  ⟨C9_confirmed.2.2.1 (.response 403 .malformed) "hi",
   C9_confirmed.2.2.2.1 (.response 403 .malformed) "hi" (by decide)⟩

/-! ### Claim C10 -/

/-- C10: the acceptance check is the only place trimming occurs — an
accepted draft is appended to the history exactly as typed, recorded
verbatim as the text passed to the resolver, and placed verbatim in the
request body sent to the service. -/
theorem C10_confirmed (s : SessionState) (key : Option String)
    (outcome : FetchOutcome) (h : jsTrim s.message ≠ "") :
    (sendMessageStart s).chatHistory.getLast? =
      some ⟨s.chatHistory.length + 1, s.message, false⟩ ∧
    (sendMessageStart s).pending.getLast? =
      some ⟨s.chatHistory.length, s.message⟩ ∧
    (keyFalsy key = false →
      (callGeminiApi key outcome s.message).2 = some ⟨key.getD "", s.message⟩) := by
  have hcond : (jsTrim s.message == "") = false := by simpa using h
  refine ⟨by simp [sendMessageStart, hcond], by simp [sendMessageStart, hcond], ?_⟩
  intro hk
  match outcome with
  | .networkError => simp [callGeminiApi, hk]
  | .response status body =>
      by_cases hok : responseOk status = true
      · match body with
        | .malformed => simp [callGeminiApi, hk, hok]
        | .json none => simp [callGeminiApi, hk, hok]
        | .json (some t) => simp [callGeminiApi, hk, hok]
      · have hok' : responseOk status = false := by simpa using hok
        simp [callGeminiApi, hk, hok']

/-- Witness for `C10_confirmed`: the draft `"  hi  "` is accepted and both
appended and sent untrimmed. -/
theorem C10_confirmed_witness :
    (sendMessageStart ⟨seedHistory, "  hi  ", false, []⟩).chatHistory.getLast? =
      some ⟨2, "  hi  ", false⟩ ∧
    (callGeminiApi (some "k") .networkError "  hi  ").2 = some ⟨"k", "  hi  "⟩ := by
  have h := C10_confirmed ⟨seedHistory, "  hi  ", false, []⟩ (some "k")
    .networkError (by decide)
  exact ⟨by simpa using h.1, by simpa using h.2.2 (by decide)⟩

end TestingExpo
